import Mathlib

/-!
Verification of the Document Retrieval & Vector Indexing Engine of the
assistant backend (`backend/app/rag/`).

The Python sources are shallowly embedded: strings become `List Char`,
floats become `Rat` (the square root inside `np.linalg.norm`, which is in
general not rational, is taken as an explicit function parameter wherever
it occurs), Python dicts with a fixed key set become structures with
`Option` fields for the keys that are only sometimes present, and fallible
code returns `Except`. Definitions come first, then the supporting lemmas
and the claim theorems.
-/

namespace RagSpec

/-! ## Chunker: `DocumentProcessor._chunk_text` (document_processor.py) -/

/-- Models the truthiness test `if chunk_text.strip():` of `_chunk_text`:
a Python string is truthy after `strip()` exactly when it contains at least
one character that is not whitespace. -/
def keepWindow (c : List Char) : Bool :=
  c.any (fun ch => !ch.isWhitespace)

/-- One produced chunk: `content` is the window text `text[i:i+size]`,
`chunk_index` the 0-based ordinal among kept windows (the code uses
`len(chunks)`), and `start_char` / `end_char` the metadata fields set by
`_chunk_text` (`i` and `min(i + chunk_size, len(text))`). -/
structure DocumentChunk where
  content : List Char
  chunk_index : Nat
  start_char : Nat
  end_char : Nat
deriving DecidableEq, Repr

/-- The error Python raises for `range(0, L, 0)`:
`ValueError: range() arg 3 must not be zero`. -/
inductive ChunkError where
  | rangeStepZero : ChunkError
deriving DecidableEq, Repr

/-- The start offsets visited by `range(0, L, step)` for `step > 0`:
`0, step, 2*step, ...` while strictly below `L`
(their count is the ceiling of `L / step`). -/
def pyWindowStarts (L step : Nat) : List Nat :=
  (List.range ((L + step - 1) / step)).map (fun q => q * step)

/-- The loop body of `_chunk_text`: for each start `i` the window is
`text[i : i + chunk_size]`; it is kept when it strips to a truthy string,
receiving `chunk_index` equal to the number of chunks kept so far. -/
def buildChunks (size : Nat) (text : List Char) : List Nat → Nat → List DocumentChunk
  | [], _ => []
  | i :: rest, idx =>
    let c := (text.drop i).take size
    if keepWindow c then
      { content := c, chunk_index := idx, start_char := i,
        end_char := min (i + size) text.length } :: buildChunks size text rest (idx + 1)
    else
      buildChunks size text rest idx

/-- `DocumentProcessor._chunk_text`. The iteration step is
`chunk_size - chunk_overlap` (Python integers): when it is zero, `range`
raises; when it is negative, `range(0, L, step)` iterates zero times and
the function returns the empty list; otherwise the sliding-window loop
runs. No other validation of the configuration exists in the source
(`__init__` stores `settings.chunk_size` / `settings.chunk_overlap`
unchecked). -/
def chunkText (size overlap : Nat) (text : List Char) :
    Except ChunkError (List DocumentChunk) :=
  if size = overlap then
    .error .rangeStepZero
  else if size < overlap then
    .ok []
  else
    .ok (buildChunks size text (pyWindowStarts text.length (size - overlap)) 0)

/-! ## Retriever: `DocumentRetriever` (retriever.py) -/

/-- A Python document dict as it flows through the RAG pipeline. The keys
that are only sometimes present (`index_id` is set by the FAISS store when
inserting, `score` by `similarity_search`, `rerank_score` by
`_rerank_documents`) are `Option` fields; `doc.get(key, default)` becomes
`Option.getD`. -/
structure PyDoc where
  content : List Char
  chunk_id : String
  embedding : List Rat
  index_id : Option Nat := none
  score : Option Rat := none
  rerank_score : Option Rat := none
deriving DecidableEq, Repr

/-- `set(query.lower().split())` from `_rerank_documents`, as a deduplicated
list: lowercase the query and split on whitespace runs, discarding empty
pieces (Python `str.split()` with no argument). -/
def queryTermSet (query : List Char) : List (List Char) :=
  (((query.map Char.toLower).splitOnP (fun c => c.isWhitespace)).filter
    (fun w => w ≠ [])).dedup

/-- `sum(1 for term in query_terms if term in content)`: how many distinct
query terms occur as substrings of the lowercased content. -/
def termMatches (query content : List Char) : Nat :=
  (queryTermSet query).countP (fun t => decide (t <:+: content.map Char.toLower))

/-- `term_density = term_matches / len(query_terms) if query_terms else 0`. -/
def termDensity (query content : List Char) : Rat :=
  if queryTermSet query = [] then 0
  else (termMatches query content : Rat) / (queryTermSet query).length

/-- `combined_score = 0.7 * original_score + 0.3 * term_density`, with
`original_score = doc.get("score", 0)`. -/
def combinedScore (query : List Char) (doc : PyDoc) : Rat :=
  7 / 10 * doc.score.getD 0 + 3 / 10 * termDensity query doc.content

/-- `DocumentRetriever._rerank_documents`: annotate every document with its
`rerank_score` and sort descending by that score (`list.sort` with
`reverse=True`; modeled with insertion sort, which like the Python sort is
stable). -/
def rerankDocuments (query : List Char) (docs : List PyDoc) : List PyDoc :=
  (docs.map (fun d => { d with rerank_score := some (combinedScore query d) })).insertionSort
    (fun a b => a.rerank_score.getD 0 ≥ b.rerank_score.getD 0)

/-- The error vocabulary the specification assigns to retrieval failures. -/
inductive RetrieverError where
  | embeddingFailure : RetrieverError
deriving DecidableEq, Repr

/-- `DocumentRetriever.retrieve`, parameterized over the outcomes of its two
collaborator calls: `queryEmbedding` is what
`embedding_generator.generate_single_embedding(query)` returned (the empty
list when the provider produced no vector, since
`generate_single_embedding` returns `embeddings[0] if embeddings else []`),
and `searchResult` is what `vector_store.similarity_search` returned for
that embedding. The body follows the source: `if not query_embedding:
return []`; reranking when requested and more than one document arrived;
then the relevance filter `doc.get("score", 0) > 0.1`. -/
def retrieve (query : List Char) (queryEmbedding : List Rat)
    (searchResult : List PyDoc) (rerank : Bool) : Except RetrieverError (List PyDoc) :=
  if queryEmbedding = [] then .ok []
  else
    let documents :=
      if rerank ∧ searchResult.length > 1 then rerankDocuments query searchResult
      else searchResult
    .ok (documents.filter (fun d => d.score.getD 0 > 1 / 10))

/-! ## FAISS vector store: `FAISSVectorStore` (vector_store.py) -/

/-- In-memory state of `FAISSVectorStore`: the rows stored in the
`faiss.IndexFlatIP` object and the parallel `documents` payload list. -/
structure FAISSState where
  indexVecs : List (List Rat)
  documents : List PyDoc
deriving DecidableEq, Repr

/-- The two on-disk artifacts `_load_or_create_index` reads: the faiss index
file at `index_path` and the pickled payload list at
`index_path.replace(".index", "_metadata.pkl")`. `none` models a missing
file. -/
structure SnapshotFiles where
  indexFile : Option (List (List Rat))
  metadataFile : Option (List PyDoc)
deriving DecidableEq, Repr

/-- `FAISSVectorStore._load_or_create_index`: when the index file exists it
is loaded, and the payload list is loaded only when the metadata file also
exists — otherwise `self.documents` silently stays `[]`. When the index
file is missing, a fresh empty index is created. The source performs no
consistency check between the two artifacts and defines no error for an
inconsistent pair (its `except` clause merely re-raises I/O failures). -/
def loadOrCreateIndex (files : SnapshotFiles) : FAISSState :=
  match files.indexFile with
  | some rows => { indexVecs := rows, documents := files.metadataFile.getD [] }
  | none => { indexVecs := [], documents := [] }

/-- Inner product of two rows (`np.dot` on equal-length float vectors). -/
def innerProd (a b : List Rat) : Rat :=
  (List.zipWith (fun x y => x * y) a b).sum

/-- Squared L2 norm. Over the reals, `np.linalg.norm v` is the square root
of this quantity; since the square root of a rational is in general not
rational, the model passes the square-root function explicitly as a
parameter named `sqrt` wherever `np.linalg.norm` occurs in the source. -/
def normSq (v : List Rat) : Rat :=
  innerProd v v

/-- The normalization expression `v / np.linalg.norm(v)` used by both
`add_documents` (row-wise) and `similarity_search` (on the query):
componentwise division by the norm. The source guards neither against a
zero norm; in exact arithmetic the quotient is then undefined, and in
floating point it is NaN. -/
def normalizeVec (sqrt : Rat → Rat) (v : List Rat) : List Rat :=
  v.map (fun x => x / sqrt (normSq v))

/-- `faiss.IndexFlatIP.search` on a flat inner-product index: every stored
row is scored by inner product with the query; the `k` best pairs
`(score, row index)` are returned, scores descending with ties broken by
insertion order, padded with the sentinel label `-1` when `k` exceeds the
number of stored rows. -/
def faissFlatTopK (rows : List (List Rat)) (q : List Rat) (k : Nat) : List (Rat × Int) :=
  let scored := rows.enum.map (fun p => (innerProd q p.2, (p.1 : Int)))
  let sorted := scored.insertionSort
    (fun a b => a.1 > b.1 ∨ (a.1 = b.1 ∧ a.2 ≤ b.2))
  sorted.take k ++ List.replicate (k - rows.length) ((0 : Rat), (-1 : Int))

/-- `FAISSVectorStore.similarity_search`: normalize the query, search the
index for `min(k, len(self.documents))` hits, and keep every hit whose
label is a valid position in the payload list, attaching its score to a
copy of the payload. -/
def similaritySearch (sqrt : Rat → Rat) (s : FAISSState) (queryEmbedding : List Rat)
    (k : Nat) : List PyDoc :=
  let q := normalizeVec sqrt queryEmbedding
  let hits := faissFlatTopK s.indexVecs q (min k s.documents.length)
  hits.filterMap (fun h =>
    if hidx : 0 ≤ h.2 ∧ h.2 < (s.documents.length : Int) then
      some { s.documents.get ⟨h.2.toNat, by omega⟩ with score := some h.1 }
    else none)

/-- `FAISSVectorStore.add_documents`: empty input is a no-op; otherwise the
embeddings are L2-normalized row-wise and appended to the index, and each
payload is appended with `index_id = start_idx + i` where
`start_idx = len(self.documents)` before the call. (`_save_index` touches
only the disk files, not the in-memory state modeled here.) -/
def addDocuments (sqrt : Rat → Rat) (s : FAISSState) (docs : List PyDoc) : FAISSState :=
  if docs = [] then s
  else
    { indexVecs := s.indexVecs ++ docs.map (fun d => normalizeVec sqrt d.embedding),
      documents := s.documents ++ docs.enum.map
        (fun p => { p.2 with index_id := some (s.documents.length + p.1) }) }

/-- `FAISSVectorStore.delete_collection`: removes the two snapshot files and
resets the in-memory state to a fresh empty index with no payloads. -/
def deleteCollection (_s : FAISSState) : FAISSState :=
  { indexVecs := [], documents := [] }

/-! ## Sequences of store operations (for the `index_id` claim) -/

/-- One mutating operation on the FAISS store, for stating the id-allocation
claim over operation sequences. -/
inductive StoreOp where
  | add : List PyDoc → StoreOp
  | deleteAll : StoreOp
deriving DecidableEq, Repr

/-- The `index_id` values `add_documents` assigns to a batch of `n`
documents inserted while the payload list has length `startIdx`:
`startIdx + i` for each batch position `i` (an empty batch assigns none,
matching the early return). -/
def allocatedIds (startIdx n : Nat) : List Nat :=
  (List.range n).map (fun i => startIdx + i)

/-- Run a sequence of store operations from a state, returning the final
state together with the log of every `index_id` allocated along the way, in
allocation order. -/
def allocRun (sqrt : Rat → Rat) (s : FAISSState) : List StoreOp → FAISSState × List Nat
  | [] => (s, [])
  | StoreOp.add docs :: rest =>
    let out := allocRun sqrt (addDocuments sqrt s docs) rest
    (out.1, allocatedIds s.documents.length docs.length ++ out.2)
  | StoreOp.deleteAll :: rest => allocRun sqrt (deleteCollection s) rest

/-- Total number of documents inserted by a sequence of operations. -/
def opsInserted : List StoreOp → Nat
  | [] => 0
  | StoreOp.add docs :: rest => docs.length + opsInserted rest
  | StoreOp.deleteAll :: rest => opsInserted rest

/-! ## Dummy queries of the id-lookup and stats operations (retriever.py) -/

/-- The query vector `dummy_embedding = [0.0] * 384` that
`DocumentRetriever.get_document_by_id` passes to
`vector_store.similarity_search` (with `k = 1000`). -/
def getDocumentByIdQuery : List Rat :=
  List.replicate 384 0

/-- The query vector `dummy_embedding = [0.0] * 384` that
`DocumentRetriever.get_collection_stats` passes to
`vector_store.similarity_search` (with `k = 1`). -/
def getCollectionStatsQuery : List Rat :=
  List.replicate 384 0

/-! ## Supporting lemmas -/

lemma length_pyWindowStarts (L step : Nat) :
    (pyWindowStarts L step).length = (L + step - 1) / step := by
  simp [pyWindowStarts]

lemma getElem_pyWindowStarts (L step j : Nat) (hj : j < (pyWindowStarts L step).length) :
    (pyWindowStarts L step)[j] = j * step := by
  simp [pyWindowStarts]

lemma mem_pyWindowStarts_lt {L step : Nat} (hs : 0 < step) {i : Nat}
    (hi : i ∈ pyWindowStarts L step) : i < L := by
  simp only [pyWindowStarts, List.mem_map, List.mem_range] at hi
  obtain ⟨q, hq, rfl⟩ := hi
  have h1 : q + 1 ≤ (L + step - 1) / step := hq
  have h2 : (q + 1) * step ≤ L + step - 1 := (Nat.le_div_iff_mul_le hs).1 h1
  have h3 : (q + 1) * step = q * step + step := by ring
  omega

lemma div_lt_ceil {L step p : Nat} (hs : 0 < step) (hp : p < L) :
    p / step < (L + step - 1) / step := by
  have h1 : p / step ≤ (L - 1) / step := Nat.div_le_div_right (by omega)
  have h2 : (L - 1) / step + 1 ≤ (L + step - 1) / step := by
    refine (Nat.le_div_iff_mul_le hs).2 ?_
    have h3 : (L - 1) / step * step ≤ L - 1 := Nat.div_mul_le_self _ _
    have h4 : ((L - 1) / step + 1) * step = (L - 1) / step * step + step := by ring
    omega
  omega

/-- When every window is kept (strips to a truthy string), `buildChunks`
produces one chunk per start offset, in order, with `chunk_index` counting
from the accumulator. -/
lemma buildChunks_all_kept (size : Nat) (text : List Char) (starts : List Nat)
    (h : ∀ i ∈ starts, keepWindow ((text.drop i).take size) = true) :
    ∀ idx, buildChunks size text starts idx =
      (starts.enumFrom idx).map (fun p =>
        { content := (text.drop p.2).take size, chunk_index := p.1, start_char := p.2,
          end_char := min (p.2 + size) text.length }) := by
  induction starts with
  | nil => intro idx; rfl
  | cons i rest ih =>
    intro idx
    have hi := h i (List.mem_cons_self _ _)
    have hrest := ih (fun j hj => h j (List.mem_cons_of_mem _ hj))
    simp only [buildChunks, hi, if_true, List.enumFrom_cons, List.map_cons, hrest]

/-- A window whose start is inside a text with no whitespace at all is kept. -/
lemma window_kept_of_no_whitespace {size : Nat} {text : List Char}
    (hsize : 0 < size) (hw : ∀ c ∈ text, c.isWhitespace = false)
    {i : Nat} (hi : i < text.length) :
    keepWindow ((text.drop i).take size) = true := by
  have hdrop : text.drop i = text[i] :: text.drop (i + 1) := List.drop_eq_getElem_cons hi
  have hsz : size = (size - 1) + 1 := by omega
  rw [keepWindow, hdrop, hsz, List.take_succ_cons, List.any_cons]
  have hc : text[i].isWhitespace = false := hw _ (List.getElem_mem hi)
  simp [hc]

lemma allocatedIds_eq_range' (startIdx n : Nat) :
    allocatedIds startIdx n = List.range' startIdx n := by
  rw [allocatedIds, List.range'_eq_map_range]

lemma addDocuments_documents_length (sqrt : Rat → Rat) (s : FAISSState)
    (docs : List PyDoc) :
    (addDocuments sqrt s docs).documents.length = s.documents.length + docs.length := by
  rw [addDocuments]
  split
  · simp [*]
  · simp

/-- Without any `delete_collection`, the allocation log of a run is the
contiguous range starting at the initial payload count. -/
lemma allocRun_log_no_delete (sqrt : Rat → Rat) (ops : List StoreOp)
    (hnd : ∀ op ∈ ops, op ≠ StoreOp.deleteAll) :
    ∀ s : FAISSState,
      (allocRun sqrt s ops).2 = List.range' s.documents.length (opsInserted ops) := by
  induction ops with
  | nil => intro s; rfl
  | cons op rest ih =>
    intro s
    cases op with
    | add docs =>
      have hrest := ih (fun o ho => hnd o (List.mem_cons_of_mem _ ho))
        (addDocuments sqrt s docs)
      rw [allocRun]
      simp only [hrest, addDocuments_documents_length, allocatedIds_eq_range', opsInserted]
      have := List.range'_append s.documents.length docs.length (opsInserted rest) 1
      simp only [Nat.one_mul, Nat.add_comm (opsInserted rest) docs.length] at this
      exact this
    | deleteAll =>
      exact absurd rfl (hnd StoreOp.deleteAll (List.mem_cons_self _ _))

lemma normSq_replicate_zero (n : Nat) : normSq (List.replicate n (0 : Rat)) = 0 := by
  induction n with
  | zero => rfl
  | succ n ih =>
    rw [normSq, innerProd] at ih ⊢
    simp only [List.replicate_succ, List.zipWith_cons_cons, List.sum_cons, ih]
    norm_num

/-! ## C1: loading a partial snapshot -/

/-- C1 (counterexample). The claim fails as stated: loading a snapshot whose
index file holds one row while the metadata file is missing succeeds
silently and produces an in-memory state with one stored vector and zero
payload records — no `CorruptIndex` rejection exists in the source. -/
theorem loadOrCreateIndex_partial_counterexample :
    (loadOrCreateIndex { indexFile := some [[1]], metadataFile := none }).indexVecs.length = 1 ∧
    (loadOrCreateIndex { indexFile := some [[1]], metadataFile := none }).documents.length = 0 ∧
    (1 : Nat) ≠ 0 :=
  ⟨rfl, rfl, by decide⟩

/-- C1 (amended). `_load_or_create_index` never rejects a snapshot: whenever
the index file exists but the parallel metadata file is missing, the load
succeeds with the loaded vectors and an empty payload list, silently
yielding a state whose stored-vector count can differ from its
payload-record count. -/
theorem loadOrCreateIndex_partial_amended (rows : List (List Rat)) (files : SnapshotFiles)
    (hidx : files.indexFile = some rows) (hmeta : files.metadataFile = none) :
    loadOrCreateIndex files = { indexVecs := rows, documents := [] } := by
  rw [loadOrCreateIndex, hidx, hmeta]
  rfl

/-- C1 (witness). The amended load theorem applied to the concrete partial
snapshot with one row and no metadata file. -/
theorem loadOrCreateIndex_partial_witness :
    loadOrCreateIndex { indexFile := some [[1]], metadataFile := none } =
      { indexVecs := [[1]], documents := [] } :=
  loadOrCreateIndex_partial_amended [[1]] { indexFile := some [[1]], metadataFile := none }
    rfl rfl

/-! ## C2: retrieval when the embedding provider returns no vector -/

/-- C2 (counterexample). The claim fails as stated: when the embedding
provider returns no vector, `retrieve` logs a warning and returns the empty
list as a normal result; it does not fail with an `EmbeddingFailure`
error. -/
theorem retrieve_no_vector_counterexample :
    retrieve [] [] [] false = .ok [] ∧
    retrieve [] [] [] false ≠ .error RetrieverError.embeddingFailure := by
  refine ⟨rfl, ?_⟩
  intro h
  simp [retrieve] at h

/-- C2 (amended). When the embedding provider returns no vector for the
query, `retrieve` returns the empty list as a normal (non-error) result
without consulting the vector store, for every query, store response and
rerank flag; the failure is silently absorbed rather than surfaced. -/
theorem retrieve_no_vector_amended (query : List Char) (searchResult : List PyDoc)
    (rerank : Bool) :
    retrieve query [] searchResult rerank = .ok [] := by
  simp [retrieve]

/-! ## C3: chunk coverage -/

/-- C3 (counterexample). The claim fails as stated: with the valid
configuration `chunk_size = 2`, `chunk_overlap = 1` and the 4-character text
`"a   "`, the windows starting at 1, 2 and 3 strip to the empty string and
are discarded, so the single produced chunk spans `[0, 2)` and position
`2 < 4` is covered by no chunk. -/
theorem chunkText_coverage_counterexample :
    0 < 1 ∧ 1 < 2 ∧ 2 < (['a', ' ', ' ', ' '] : List Char).length ∧
    chunkText 2 1 ['a', ' ', ' ', ' '] =
      .ok [{ content := ['a', ' '], chunk_index := 0, start_char := 0, end_char := 2 }] ∧
    ¬(({ content := ['a', ' '], chunk_index := 0, start_char := 0, end_char := 2 } : DocumentChunk).start_char ≤ 2 ∧
      2 < ({ content := ['a', ' '], chunk_index := 0, start_char := 0, end_char := 2 } : DocumentChunk).end_char) :=
  ⟨by decide, by decide, by decide, rfl, by decide⟩

/-- C3 (amended). For a valid configuration (`0 < chunk_overlap < chunk_size`)
and a text none of whose characters is whitespace (so that no window is
discarded by the `strip()` test), the produced chunks cover `[0, L)` with no
gaps; the `j`-th chunk spans
`[j*(size-overlap), min (j*(size-overlap) + size) L)`; and every adjacent
pair whose earlier chunk is full (its window not cut short by the end of the
text) overlaps by exactly `chunk_overlap` characters. -/
theorem chunkText_coverage_amended (size overlap : Nat) (text : List Char)
    (hov : 0 < overlap) (hso : overlap < size)
    (hw : ∀ c ∈ text, c.isWhitespace = false) :
    ∃ l, chunkText size overlap text = Except.ok l ∧
      (∀ p, p < text.length → ∃ ch ∈ l, ch.start_char ≤ p ∧ p < ch.end_char) ∧
      (∀ j, (hj : j < l.length) →
        (l.get ⟨j, hj⟩).start_char = j * (size - overlap) ∧
        (l.get ⟨j, hj⟩).end_char = min (j * (size - overlap) + size) text.length) ∧
      (∀ j, (hj : j + 1 < l.length) →
        (l.get ⟨j, Nat.lt_of_succ_lt hj⟩).start_char + size ≤ text.length →
        (l.get ⟨j, Nat.lt_of_succ_lt hj⟩).end_char =
          (l.get ⟨j + 1, hj⟩).start_char + overlap) := by
  have hs : 0 < size - overlap := by omega
  set step := size - overlap with hstepdef
  set L := text.length with hLdef
  set starts := pyWindowStarts L step with hstartsdef
  have hkept : ∀ i ∈ starts, keepWindow ((text.drop i).take size) = true := by
    intro i hi
    exact window_kept_of_no_whitespace (by omega) hw (mem_pyWindowStarts_lt hs hi)
  have hbuild := buildChunks_all_kept size text starts hkept 0
  refine ⟨buildChunks size text starts 0, ?_, ?_, ?_, ?_⟩
  · rw [chunkText, if_neg (by omega), if_neg (by omega)]
  · -- coverage
    intro p hp
    have hjlt : p / step < (buildChunks size text starts 0).length := by
      rw [hbuild]
      simp only [List.length_map, List.enumFrom_length, hstartsdef, length_pyWindowStarts]
      exact div_lt_ceil hs hp
    refine ⟨(buildChunks size text starts 0).get ⟨p / step, hjlt⟩, List.get_mem _ _ _, ?_⟩
    have hgetj : (buildChunks size text starts 0).get ⟨p / step, hjlt⟩ =
        { content := (text.drop (p / step * step)).take size, chunk_index := p / step,
          start_char := p / step * step,
          end_char := min (p / step * step + size) L } := by
      rw [List.get_eq_getElem]
      simp only [hbuild, List.getElem_map, List.getElem_enumFrom, Nat.zero_add, hstartsdef,
        getElem_pyWindowStarts]
    rw [hgetj]
    have e1 : step * (p / step) + p % step = p := Nat.div_add_mod p step
    have e2 : p % step < step := Nat.mod_lt _ hs
    have e3 : p / step * step = step * (p / step) := Nat.mul_comm _ _
    constructor
    · simp only
      omega
    · simp only
      omega
  · -- span formula
    intro j hj
    rw [List.get_eq_getElem]
    simp [hbuild, List.getElem_map, List.getElem_enumFrom, hstartsdef, getElem_pyWindowStarts]
  · -- adjacent overlap for full chunks
    intro j hj hfull
    have hj1 : j < (buildChunks size text starts 0).length := Nat.lt_of_succ_lt hj
    have hgj : (buildChunks size text starts 0).get ⟨j, hj1⟩ =
        { content := (text.drop (j * step)).take size, chunk_index := j,
          start_char := j * step, end_char := min (j * step + size) L } := by
      rw [List.get_eq_getElem]
      simp only [hbuild, List.getElem_map, List.getElem_enumFrom, Nat.zero_add, hstartsdef,
        getElem_pyWindowStarts]
    have hgj1 : (buildChunks size text starts 0).get ⟨j + 1, hj⟩ =
        { content := (text.drop ((j + 1) * step)).take size, chunk_index := j + 1,
          start_char := (j + 1) * step, end_char := min ((j + 1) * step + size) L } := by
      rw [List.get_eq_getElem]
      simp only [hbuild, List.getElem_map, List.getElem_enumFrom, Nat.zero_add, hstartsdef,
        getElem_pyWindowStarts]
    rw [hgj] at hfull ⊢
    rw [hgj1]
    simp only at hfull ⊢
    have e1 : (j + 1) * step = j * step + step := by ring
    omega

/-- C3 (witness). The amended coverage theorem applied at `chunk_size = 3`,
`chunk_overlap = 1` and the whitespace-free text `"abcde"`. -/
theorem chunkText_coverage_witness :
    0 < 1 ∧ 1 < 3 ∧ (∀ c ∈ (['a', 'b', 'c', 'd', 'e'] : List Char), c.isWhitespace = false) ∧
    ∃ l, chunkText 3 1 ['a', 'b', 'c', 'd', 'e'] = Except.ok l ∧
      ∀ p, p < (['a', 'b', 'c', 'd', 'e'] : List Char).length →
        ∃ ch ∈ l, ch.start_char ≤ p ∧ p < ch.end_char := by
  refine ⟨by decide, by decide, by decide, ?_⟩
  obtain ⟨l, h1, h2, -, -⟩ :=
    chunkText_coverage_amended 3 1 ['a', 'b', 'c', 'd', 'e'] (by decide) (by decide) (by decide)
  exact ⟨l, h1, h2⟩

/-! ## C4: single chunk for short texts -/

/-- C4 (counterexample). The claim fails as stated: with the valid
configuration `chunk_size = 10`, `chunk_overlap = 9` (step 1), the text
`"abcde"` of length `5 < 10` yields five chunks, not one — every suffix
window is non-empty after `strip()` and is kept. -/
theorem chunkText_single_chunk_counterexample :
    0 < 9 ∧ 9 < 10 ∧ (['a', 'b', 'c', 'd', 'e'] : List Char).length < 10 ∧
    (chunkText 10 9 ['a', 'b', 'c', 'd', 'e']).toOption.map List.length = some 5 ∧
    (5 : Nat) ≠ 1 :=
  ⟨by decide, by decide, by decide, by decide, by decide⟩

/-- C4 (amended). A text yields exactly one chunk spanning the whole text
precisely under stronger hypotheses than claimed: its length must be
positive and at most the step `chunk_size - chunk_overlap` (so that the
`range` loop iterates exactly once), and it must contain a non-whitespace
character (so the single window survives the `strip()` test). Texts with
`chunk_size - chunk_overlap < length < chunk_size` yield several chunks,
and empty or all-whitespace texts yield none. -/
theorem chunkText_single_chunk_amended (size overlap : Nat) (text : List Char)
    (hov : 0 < overlap) (hso : overlap < size)
    (hL : 0 < text.length) (hstep : text.length ≤ size - overlap)
    (hk : keepWindow text = true) :
    chunkText size overlap text =
      .ok [{ content := text, chunk_index := 0, start_char := 0,
             end_char := text.length }] := by
  have hs : 0 < size - overlap := by omega
  set step := size - overlap with hstepdef
  set L := text.length with hLdef
  have hceil : (L + step - 1) / step = 1 := by
    refine Nat.div_eq_of_lt_le (by omega) (by omega)
  have hstarts : pyWindowStarts L step = [0] := by
    have h0 : List.range 1 = [0] := rfl
    rw [pyWindowStarts, hceil, h0, List.map_singleton]
    simp
  rw [chunkText, if_neg (by omega), if_neg (by omega), hstarts]
  have htake : text.take size = text := List.take_of_length_le (by omega)
  simp only [buildChunks, List.drop_zero, htake, hk, if_true, Nat.zero_add]
  have hmin : min size L = L := Nat.min_eq_right (by omega)
  rw [hmin]

/-- C4 (witness). The amended single-chunk theorem applied at
`chunk_size = 3`, `chunk_overlap = 1` and the text `"ab"` of length 2. -/
theorem chunkText_single_chunk_witness :
    0 < 1 ∧ 1 < 3 ∧ 0 < (['a', 'b'] : List Char).length ∧
    (['a', 'b'] : List Char).length ≤ 3 - 1 ∧ keepWindow ['a', 'b'] = true ∧
    chunkText 3 1 ['a', 'b'] =
      .ok [{ content := ['a', 'b'], chunk_index := 0, start_char := 0, end_char := 2 }] :=
  ⟨by decide, by decide, by decide, by decide, by decide,
    chunkText_single_chunk_amended 3 1 ['a', 'b'] (by decide) (by decide) (by decide)
      (by decide) (by decide)⟩

/-! ## C5: relevance floor -/

/-- C5 (confirmed). Every document in the list returned by `retrieve` has
score strictly greater than 0.1: the relevance filter
`doc.get("score", 0) > 0.1` is the last step on every non-empty path, and
reranking never modifies the `score` key. -/
theorem retrieve_relevance_floor (query : List Char) (queryEmbedding : List Rat)
    (searchResult : List PyDoc) (rerank : Bool) (l : List PyDoc) (d : PyDoc)
    (hok : retrieve query queryEmbedding searchResult rerank = .ok l)
    (hd : d ∈ l) : d.score.getD 0 > 1 / 10 := by
  by_cases he : queryEmbedding = []
  · rw [retrieve, if_pos he] at hok
    injection hok with h
    subst h
    simp at hd
  · simp only [retrieve, if_neg he] at hok
    injection hok with h
    subst h
    have hmem := List.mem_filter.1 hd
    simpa using hmem.2

/-- C5 (witness). The relevance-floor theorem applied to a concrete
one-document store response with score 1. -/
theorem retrieve_relevance_floor_witness :
    retrieve ['q'] [1] [{ content := ['q'], chunk_id := "c1", embedding := [1], score := some 1 }] false =
      .ok [{ content := ['q'], chunk_id := "c1", embedding := [1], score := some 1 }] ∧
    ({ content := ['q'], chunk_id := "c1", embedding := [1], score := some 1 } : PyDoc).score.getD 0 > 1 / 10 := by
  have hok : retrieve ['q'] [1] [{ content := ['q'], chunk_id := "c1", embedding := [1], score := some 1 }] false =
      .ok [{ content := ['q'], chunk_id := "c1", embedding := [1], score := some 1 }] := by
    norm_num [retrieve]
  exact ⟨hok, retrieve_relevance_floor ['q'] [1] _ false _ _ hok (List.mem_cons_self _ _)⟩

/-! ## C6: fusion monotonicity -/

/-- C6 (confirmed). Fusion monotonicity of the reranking rule: if document A
has strictly higher stored similarity and strictly higher term density than
document B for the same query, then the combined score
`0.7 * score + 0.3 * term_density` of A is at least that of B. -/
theorem combinedScore_fusion_monotone (query : List Char) (A B : PyDoc)
    (hsim : A.score.getD 0 > B.score.getD 0)
    (hden : termDensity query A.content > termDensity query B.content) :
    combinedScore query A ≥ combinedScore query B := by
  rw [combinedScore, combinedScore]
  have h1 := le_of_lt hsim
  have h2 := le_of_lt hden
  linarith

/-- C6 (witness). The fusion-monotonicity theorem applied to concrete
documents: for query `"q"`, content `"q"` has term density 1 and content
`"z"` has term density 0. -/
theorem combinedScore_fusion_monotone_witness :
    ({ content := ['q'], chunk_id := "a", embedding := [], score := some 1 } : PyDoc).score.getD 0 >
      ({ content := ['z'], chunk_id := "b", embedding := [], score := some 0 } : PyDoc).score.getD 0 ∧
    termDensity ['q'] ['q'] > termDensity ['q'] ['z'] ∧
    combinedScore ['q'] { content := ['q'], chunk_id := "a", embedding := [], score := some 1 } ≥
      combinedScore ['q'] { content := ['z'], chunk_id := "b", embedding := [], score := some 0 } := by
  have hq : queryTermSet ['q'] = [['q']] := rfl
  have hm1 : termMatches ['q'] ['q'] = 1 := rfl
  have hm0 : termMatches ['q'] ['z'] = 0 := rfl
  have hdA : termDensity ['q'] ['q'] = 1 := by
    rw [termDensity, hq, hm1]
    norm_num
  have hdB : termDensity ['q'] ['z'] = 0 := by
    rw [termDensity, hq, hm0]
    norm_num
  have hsim : ({ content := ['q'], chunk_id := "a", embedding := [], score := some 1 } : PyDoc).score.getD 0 >
      ({ content := ['z'], chunk_id := "b", embedding := [], score := some 0 } : PyDoc).score.getD 0 := by
    norm_num
  have hden : termDensity ['q'] ['q'] > termDensity ['q'] ['z'] := by
    rw [hdA, hdB]
    norm_num
  exact ⟨hsim, hden, combinedScore_fusion_monotone ['q'] _ _ hsim hden⟩

/-! ## C7: search after delete -/

/-- C7 (confirmed). After `delete_collection`, the payload list is empty, so
`similarity_search` asks faiss for `min(k, 0) = 0` results and returns the
empty list — a normal result, not an error — for every square-root model,
prior state, query vector and `k`. -/
theorem similaritySearch_after_delete_empty (sqrt : Rat → Rat) (s : FAISSState)
    (queryEmbedding : List Rat) (k : Nat) :
    similaritySearch sqrt (deleteCollection s) queryEmbedding k = [] := by
  simp [similaritySearch, deleteCollection, faissFlatTopK]

/-! ## C8: `index_id` allocation -/

/-- C8 (counterexample). The claim fails as stated: inserting one document,
deleting the collection, then inserting another document allocates the
`index_id` 0 twice, because `delete_collection` resets the payload list and
`add_documents` restarts its counter at `len(self.documents) = 0`. -/
theorem allocRun_id_reuse_counterexample :
    (allocRun (fun q => q) { indexVecs := [], documents := [] }
      [StoreOp.add [{ content := ['x'], chunk_id := "x", embedding := [1] }],
       StoreOp.deleteAll,
       StoreOp.add [{ content := ['x'], chunk_id := "x", embedding := [1] }]]).2 = [0, 0] ∧
    ¬ List.Pairwise (fun a b => a < b) [0, 0] :=
  ⟨rfl, by decide⟩

/-- C8 (amended). `index_id` allocation is monotonically increasing and
never reused only across operation sequences that contain no
`delete_collection`: there each new id is strictly greater than every id
allocated before. A deletion resets the counter to 0 and previously
allocated ids are reused by later insertions. -/
theorem allocRun_monotone_amended (sqrt : Rat → Rat) (ops : List StoreOp)
    (hnd : ∀ op ∈ ops, op ≠ StoreOp.deleteAll) (s : FAISSState) :
    List.Pairwise (fun a b => a < b) (allocRun sqrt s ops).2 := by
  rw [allocRun_log_no_delete sqrt ops hnd s, List.range'_eq_map_range]
  rw [List.pairwise_map]
  have := List.pairwise_lt_range (opsInserted ops)
  exact this.imp (fun h => by omega)

/-- C8 (witness). The amended monotonicity theorem applied to a concrete
deletion-free run of two insertions: ids 0, 1, 2 are allocated in strictly
increasing order. -/
theorem allocRun_monotone_witness :
    (∀ op ∈ [StoreOp.add [{ content := ['x'], chunk_id := "x", embedding := [1] }],
        StoreOp.add [{ content := ['y'], chunk_id := "y", embedding := [1] },
          { content := ['z'], chunk_id := "z", embedding := [1] }]],
      op ≠ StoreOp.deleteAll) ∧
    (allocRun (fun q => q) { indexVecs := [], documents := [] }
      [StoreOp.add [{ content := ['x'], chunk_id := "x", embedding := [1] }],
       StoreOp.add [{ content := ['y'], chunk_id := "y", embedding := [1] },
         { content := ['z'], chunk_id := "z", embedding := [1] }]]).2 = [0, 1, 2] ∧
    List.Pairwise (fun a b => a < b)
      (allocRun (fun q => q) { indexVecs := [], documents := [] }
        [StoreOp.add [{ content := ['x'], chunk_id := "x", embedding := [1] }],
         StoreOp.add [{ content := ['y'], chunk_id := "y", embedding := [1] },
           { content := ['z'], chunk_id := "z", embedding := [1] }]]).2 := by
  refine ⟨by decide, rfl, ?_⟩
  exact allocRun_monotone_amended (fun q => q) _ (by decide) _

/-! ## C9: configuration validation -/

/-- C9 (counterexample). The claim fails as stated: the configuration
`chunk_size = 2`, `chunk_overlap = 3` is invalid (overlap exceeds size),
yet the chunker does not reject it — the Python `range` with negative step
iterates zero times, so `_chunk_text` returns the empty list normally. -/
theorem chunkText_config_counterexample :
    2 < 3 ∧ chunkText 2 3 ['a', 'b', 'c'] = .ok [] :=
  ⟨by decide, rfl⟩

/-- C9 (amended). The only configuration the chunker rejects with an error
is `chunk_overlap = chunk_size` (the Python `range` step is zero, raising
`ValueError`); a configuration with `chunk_overlap > chunk_size` silently
produces the empty chunk sequence for every text, and no validation happens
at construction time. -/
theorem chunkText_config_amended (size overlap : Nat) (text : List Char) :
    (size = overlap → chunkText size overlap text = .error .rangeStepZero) ∧
    (size < overlap → chunkText size overlap text = .ok []) := by
  constructor
  · intro h
    rw [chunkText, if_pos h]
  · intro h
    rw [chunkText, if_neg (by omega), if_pos h]

/-- C9 (witness). The amended configuration theorem applied at the concrete
configurations `(2, 2)` (step zero: error) and `(2, 3)` (negative step:
empty result). -/
theorem chunkText_config_witness :
    chunkText 2 2 ['a'] = .error .rangeStepZero ∧ chunkText 2 3 ['a'] = .ok [] :=
  ⟨(chunkText_config_amended 2 2 ['a']).1 rfl,
   (chunkText_config_amended 2 3 ['a']).2 (by decide)⟩

/-! ## C10: zero-norm dummy queries -/

/-- C10 (confirmed). Both `get_document_by_id` and `get_collection_stats`
invoke the store search with the all-zeros 384-dimensional vector, whose L2
norm is 0; `similarity_search` divides the query by that norm with no zero
guard, so every component of the normalized query is the undefined quotient
0/0 (NaN in floating point), and the normalization fails its defining
property of producing a unit vector. -/
theorem dummy_query_zero_norm :
    normSq getDocumentByIdQuery = 0 ∧
    normSq getCollectionStatsQuery = 0 ∧
    ∀ sqrt : Rat → Rat, sqrt 0 = 0 →
      normalizeVec sqrt getDocumentByIdQuery = List.replicate 384 ((0 : Rat) / 0) ∧
      normSq (normalizeVec sqrt getDocumentByIdQuery) ≠ 1 := by
  refine ⟨normSq_replicate_zero 384, normSq_replicate_zero 384, ?_⟩
  intro sqrt hsqrt
  have hnorm : normalizeVec sqrt getDocumentByIdQuery = List.replicate 384 ((0 : Rat) / 0) := by
    rw [normalizeVec, getDocumentByIdQuery, normSq_replicate_zero, hsqrt, List.map_replicate]
  refine ⟨hnorm, ?_⟩
  rw [hnorm]
  have h00 : (0 : Rat) / 0 = 0 := by norm_num
  rw [h00, normSq_replicate_zero]
  norm_num

/-- C10 (witness). The zero-norm theorem applied with the identity function
as the square-root model (which does map 0 to 0). -/
theorem dummy_query_zero_norm_witness :
    normSq getDocumentByIdQuery = 0 ∧
    normSq (normalizeVec (fun q => q) getDocumentByIdQuery) ≠ 1 :=
  ⟨dummy_query_zero_norm.1, (dummy_query_zero_norm.2.2 (fun q => q) rfl).2⟩

end RagSpec
